import Mathlib

/-!
Verification development for the PyTool supervised-task core.

This file gives a shallow embedding of the concurrency core of the
repository: the task-process manager (`src/PyTool/pmgr.py`, classes
`TaskPro` and `TaskProMgr`) and the two keyed lock managers
(`src/PyTool/tlock.py`, class `KeyTLock`; `src/PyTool/plock.py`, class
`KeyPLock`).

Modelling conventions:
* Python objects become Lean structures; mutation becomes functional
  state passing (each operation takes the state and returns the result,
  the new state, and a trace of the events it performed).
* Environmental facts the code queries at run time (process liveness,
  whether the readiness signal arrived within the timeout, whether the
  worker exited within the graceful window) are passed in as explicit
  environment records, one boolean per query site in the source.
* Lock acquisition structure is recorded in the event trace: `regAcq`
  and `regRel` for the registry mutex `TaskProMgr._lock`, `taskAcq` and
  `taskRel` for the per-task mutex `TaskPro._lock`, plus the visible
  side effects (spawn, waits, terminate, joins).
* Worker callables are opaque `Nat` identifiers; keyword-argument
  dictionaries are insertion-ordered association lists, with values in
  `KwVal` so that the injected `multiprocessing.Event` objects are
  distinguishable from caller-supplied values.
-/

namespace PyTool

/-- Mirrors `TaskStatus` in `pmgr.py`: READY, RUNNING, STOPPED. -/
inductive TaskStatus
  | ready
  | running
  | stopped
deriving DecidableEq

/-- A spawned OS process handle; its identity is its pid (given by the
environment at spawn time). Liveness is environmental, not stored. -/
structure ProcHandle where
  pid : Nat
deriving DecidableEq

/-- A value in a keyword-argument dictionary: either an opaque
caller-supplied value, or one of the two `multiprocessing.Event`
objects the code injects before spawning. -/
inductive KwVal
  | user (n : Nat)
  | stopEv
  | readyEv
deriving DecidableEq

/-- An insertion-ordered dictionary of keyword arguments (Python dict). -/
abbrev KwList := List (String × KwVal)

/-- Python dict assignment `d[k] = v`: overwrite in place keeping the
position if `k` is present, else append at the end. -/
def setKw (l : KwList) (k : String) (v : KwVal) : KwList :=
  if l.any (fun p => p.1 == k) then
    l.map (fun p => if p.1 == k then (k, v) else p)
  else
    l ++ [(k, v)]

/-- First-match lookup in an insertion-ordered association list
(Python `d[k]` / `k in d`, keys unique by construction). -/
def lookupKey {α : Type} (c : List (String × α)) (k : String) : Option α :=
  (c.find? (fun p => p.1 == k)).map (fun p => p.2)

/-- Events an operation can perform, including lock acquisitions.
`regAcq`/`regRel` bracket the registry mutex `TaskProMgr._lock`;
`taskAcq`/`taskRel` bracket the per-task mutex `TaskPro._lock`.
`spawnEv` records the `multiprocessing.Process(...).start()` call with
the positional and keyword arguments handed to the child. -/
inductive LEvent
  | regAcq
  | regRel
  | taskAcq
  | taskRel
  | clearSignalsEv
  | spawnEv (args : Option (List Nat)) (kwargs : KwList)
  | waitReadyEv
  | setStopSignalEv
  | joinGraceEv
  | joinForceEv
  | joinStartEv
  | terminateEv
deriving DecidableEq

/-- The state of one `TaskPro` instance (`pmgr.py` lines 24-47): the
task payload set by `set`, the status, the two shared event flags and
the tracked process handle. -/
structure TaskPro where
  task : Option Nat
  name : Option String
  args : Option (List Nat)
  kwargs : Option KwList
  status : Option TaskStatus
  stopEvent : Bool
  startSuccessEvent : Bool
  process : Option ProcHandle
deriving DecidableEq

/-- A freshly constructed `TaskPro` (`__init__`): everything unset, both
events cleared, no process tracked. -/
def TaskPro.init : TaskPro :=
  { task := none, name := none, args := none, kwargs := none,
    status := none, stopEvent := false, startSuccessEvent := false,
    process := none }

/-- `TaskPro.set` (`pmgr.py` lines 49-69): refuses if a task is already
bound; otherwise binds the payload, normalising absent args/kwargs to
`()`/`{}`, and moves the status to READY. The source takes no lock here. -/
def TaskPro.set (t : TaskPro) (task : Nat) (name : String)
    (args : Option (List Nat)) (kwargs : Option KwList) :
    Bool × TaskPro × List LEvent :=
  if t.task.isSome then
    (false, t, [])
  else
    (true,
     { t with task := some task, name := some name,
              args := some (args.getD []), kwargs := some (kwargs.getD []),
              status := some .ready },
     [])

/-- Environment for one `TaskPro.start` call: the liveness answer for
the already-tracked process at the guard, the pid the OS gives the new
process, whether the readiness signal arrived within the timeout, and
the liveness answer for the spawned process at the timeout cleanup. -/
structure StartEnv where
  oldAlive : Bool
  newPid : Nat
  ready : Bool
  aliveAtTimeout : Bool
deriving DecidableEq

/-- The keyword dictionary actually handed to the child process
(`pmgr.py` lines 92-94): a copy of the stored kwargs with the stop
event and the start-success event written in (overwriting clashes). -/
def spawnKwargs (kw : KwList) : KwList :=
  setKw (setKw kw "stop_event" .stopEv) "start_success_event" .readyEv

/-- `TaskPro.start` (`pmgr.py` lines 71-120). Under the task mutex:
no-op false if no task is set or the tracked process is alive;
otherwise clear both event flags and spawn the worker. The wait for
the readiness signal happens after releasing the task mutex. On
confirmation, re-acquire and set RUNNING, return true; on timeout,
re-acquire, terminate the spawned process if it is still alive and
join up to 2s, drop the handle, set STOPPED, return false. -/
def TaskPro.start (t : TaskPro) (env : StartEnv) :
    Bool × TaskPro × List LEvent :=
  if t.task.isNone then
    (false, t, [.taskAcq, .taskRel])
  else if t.process.isSome && env.oldAlive then
    (false, t, [.taskAcq, .taskRel])
  else
    let t1 : TaskPro :=
      { t with stopEvent := false, startSuccessEvent := false,
               process := some ⟨env.newPid⟩ }
    let pre : List LEvent :=
      [.taskAcq, .clearSignalsEv,
       .spawnEv t.args (spawnKwargs (t.kwargs.getD [])),
       .taskRel, .waitReadyEv]
    if env.ready then
      (true,
       { t1 with status := some .running, startSuccessEvent := true },
       pre ++ [.taskAcq, .taskRel])
    else
      (false,
       { t1 with process := none, status := some .stopped },
       pre ++ [.taskAcq]
           ++ (if env.aliveAtTimeout then [.terminateEv, .joinStartEv] else [])
           ++ [.taskRel])

/-- Environment for one `TaskPro.stop` call: the liveness answer at the
initial check, and the liveness answer after the 5-second graceful join. -/
structure StopEnv where
  aliveFirst : Bool
  aliveAfterGrace : Bool
deriving DecidableEq

/-- `TaskPro.stop` (`pmgr.py` lines 123-156), entirely under the task
mutex: false if no process is tracked; if the tracked process is
already dead, just reset state and return true; otherwise set the stop
signal, join up to 5s, force-terminate and join up to 1s if still
alive, then unconditionally reset state and return true. -/
def TaskPro.stop (t : TaskPro) (env : StopEnv) :
    Bool × TaskPro × List LEvent :=
  match t.process with
  | none => (false, t, [.taskAcq, .taskRel])
  | some _ =>
    if !env.aliveFirst then
      (true, { t with process := none, status := some .stopped },
       [.taskAcq, .taskRel])
    else
      (true,
       { t with stopEvent := true, process := none, status := some .stopped },
       [.taskAcq, .setStopSignalEv, .joinGraceEv]
         ++ (if env.aliveAfterGrace then [.terminateEv, .joinForceEv] else [])
         ++ [.taskRel])

/-- `TaskPro.is_alive` (`pmgr.py` lines 158-165): a process is tracked
and the OS reports it alive (the liveness answer is environmental). -/
def TaskPro.is_alive (t : TaskPro) (alive : Bool) : Bool × List LEvent :=
  (t.process.isSome && alive, [.taskAcq, .taskRel])

/-- `TaskPro.get_status` (`pmgr.py` lines 167-174). -/
def TaskPro.get_status (t : TaskPro) : Option TaskStatus × List LEvent :=
  (t.status, [.taskAcq, .taskRel])

/-- Environment for one `TaskPro.restart` call: the liveness answer at
restart's own guard, plus the environments of the inner stop and start. -/
structure RestartEnv where
  aliveAtCheck : Bool
  stopEnv : StopEnv
  startEnv : StartEnv
deriving DecidableEq

/-- `TaskPro.restart` (`pmgr.py` lines 195-210): false if no task set;
stops first when a live process is tracked; then delegates to `start`.
The source takes no lock of its own here. -/
def TaskPro.restart (t : TaskPro) (env : RestartEnv) :
    Bool × TaskPro × List LEvent :=
  if t.task.isNone then
    (false, t, [])
  else
    let stopped :=
      if t.process.isSome && env.aliveAtCheck then
        let r := t.stop env.stopEnv
        (r.2.1, r.2.2)
      else (t, ([] : List LEvent))
    let r2 := stopped.1.start env.startEnv
    (r2.1, r2.2.1, stopped.2 ++ r2.2.2)

/-- The snapshot dictionary returned by `TaskPro.info`. -/
structure TaskInfo where
  name : Option String
  status : Option TaskStatus
  pid : Option Nat
  is_alive : Bool
  args : Option (List Nat)
  kwargs : Option KwList
deriving DecidableEq

/-- `TaskPro.info` (`pmgr.py` lines 212-226): a snapshot taken under the
task mutex; pid only when a process is tracked and alive; the kwargs
slot is the stored kwargs dictionary itself. -/
def TaskPro.info (t : TaskPro) (alive : Bool) : TaskInfo × List LEvent :=
  ({ name := t.name,
     status := t.status,
     pid := if t.process.isSome && alive then t.process.map ProcHandle.pid else none,
     is_alive := if t.process.isSome then alive else false,
     args := t.args,
     kwargs := t.kwargs },
   [.taskAcq, .taskRel])

/-- The state of one `TaskProMgr` (`pmgr.py` lines 281-288): an
insertion-ordered map from task name to `TaskPro` state. Keys are kept
unique by construction (`create_task` checks membership first). -/
structure TaskProMgr where
  tasks : List (String × TaskPro)
deriving DecidableEq

/-- First-match lookup in the task map (Python `name in self._tasks` /
`self._tasks[name]`). -/
def lookupTask (m : TaskProMgr) (name : String) : Option TaskPro :=
  lookupKey m.tasks name

/-- Replace the state stored under `name` (in Python the `TaskPro`
object is mutated in place, so its position is unchanged). -/
def updateTask (m : TaskProMgr) (name : String) (t : TaskPro) : TaskProMgr :=
  ⟨m.tasks.map (fun p => if p.1 == name then (name, t) else p)⟩

/-- `TaskProMgr.create_task` (`pmgr.py` lines 290-311), under the
registry mutex: false if the name is present; otherwise construct a
fresh `TaskPro`, bind the payload via `set`, and insert it. -/
def TaskProMgr.create_task (m : TaskProMgr) (name : String) (task : Nat)
    (args : Option (List Nat)) (kwargs : Option KwList) :
    Bool × TaskProMgr × List LEvent :=
  if m.tasks.any (fun p => p.1 == name) then
    (false, m, [.regAcq, .regRel])
  else
    let r := TaskPro.init.set task name args kwargs
    if r.1 then
      (true, ⟨m.tasks ++ [(name, r.2.1)]⟩, [.regAcq] ++ r.2.2 ++ [.regRel])
    else
      (false, m, [.regAcq] ++ r.2.2 ++ [.regRel])

/-- `TaskProMgr.start_task` (`pmgr.py` lines 313-324): under the
registry mutex, delegate to the named task's `start` (the whole call,
including the readiness wait, runs while the registry mutex is held). -/
def TaskProMgr.start_task (m : TaskProMgr) (name : String) (env : StartEnv) :
    Bool × TaskProMgr × List LEvent :=
  match lookupTask m name with
  | some t =>
    let r := t.start env
    (r.1, updateTask m name r.2.1, [.regAcq] ++ r.2.2 ++ [.regRel])
  | none => (false, m, [.regAcq, .regRel])

/-- `TaskProMgr.stop_task` (`pmgr.py` lines 326-336). -/
def TaskProMgr.stop_task (m : TaskProMgr) (name : String) (env : StopEnv) :
    Bool × TaskProMgr × List LEvent :=
  match lookupTask m name with
  | some t =>
    let r := t.stop env
    (r.1, updateTask m name r.2.1, [.regAcq] ++ r.2.2 ++ [.regRel])
  | none => (false, m, [.regAcq, .regRel])

/-- `TaskProMgr.restart_task` (`pmgr.py` lines 340-350). -/
def TaskProMgr.restart_task (m : TaskProMgr) (name : String) (env : RestartEnv) :
    Bool × TaskProMgr × List LEvent :=
  match lookupTask m name with
  | some t =>
    let r := t.restart env
    (r.1, updateTask m name r.2.1, [.regAcq] ++ r.2.2 ++ [.regRel])
  | none => (false, m, [.regAcq, .regRel])

/-- `TaskProMgr.remove_task` (`pmgr.py` lines 352-366): stop the task
(result discarded), then delete its entry. -/
def TaskProMgr.remove_task (m : TaskProMgr) (name : String) (env : StopEnv) :
    Bool × TaskProMgr × List LEvent :=
  match lookupTask m name with
  | some t =>
    let r := t.stop env
    (true, ⟨m.tasks.filter (fun p => p.1 != name)⟩,
     [.regAcq] ++ r.2.2 ++ [.regRel])
  | none => (false, m, [.regAcq, .regRel])

/-- `TaskProMgr.get_task_info` (`pmgr.py` lines 368-378). -/
def TaskProMgr.get_task_info (m : TaskProMgr) (name : String) (alive : Bool) :
    Option TaskInfo × List LEvent :=
  match lookupTask m name with
  | some t =>
    let r := t.info alive
    (some r.1, [.regAcq] ++ r.2 ++ [.regRel])
  | none => (none, [.regAcq, .regRel])

/-- `TaskProMgr.list_tasks` (`pmgr.py` lines 380-387). -/
def TaskProMgr.list_tasks (m : TaskProMgr) : List String × List LEvent :=
  (m.tasks.map (fun p => p.1), [.regAcq, .regRel])

/-- Loop body of `TaskProMgr.get_all_tasks_info`, with one liveness
answer per task (taken positionally, defaulting to dead). -/
def allInfoLoop : List (String × TaskPro) → List Bool →
    List (String × TaskInfo) × List LEvent
  | [], _ => ([], [])
  | (n, t) :: rest, alives =>
    let r := t.info (alives.headD false)
    let rr := allInfoLoop rest alives.tail
    ((n, r.1) :: rr.1, r.2 ++ rr.2)

/-- `TaskProMgr.get_all_tasks_info` (`pmgr.py` lines 389-400). -/
def TaskProMgr.get_all_tasks_info (m : TaskProMgr) (alives : List Bool) :
    List (String × TaskInfo) × List LEvent :=
  let r := allInfoLoop m.tasks alives
  (r.1, [.regAcq] ++ r.2 ++ [.regRel])

/-- Loop body of `TaskProMgr.stop_all_tasks` (`pmgr.py` lines 408-414):
stop every task in order (no short-circuit; the loop only records
failures in the running flag), with one stop environment per task taken
positionally. -/
def stopAllLoop : List (String × TaskPro) → List StopEnv →
    Bool × List (String × TaskPro) × List LEvent
  | [], _ => (true, [], [])
  | (n, t) :: rest, envs =>
    let r := t.stop (envs.headD ⟨true, true⟩)
    let rr := stopAllLoop rest envs.tail
    (r.1 && rr.1, (n, r.2.1) :: rr.2.1, r.2.2 ++ rr.2.2)

/-- `TaskProMgr.stop_all_tasks` (`pmgr.py` lines 402-414). -/
def TaskProMgr.stop_all_tasks (m : TaskProMgr) (envs : List StopEnv) :
    Bool × TaskProMgr × List LEvent :=
  let r := stopAllLoop m.tasks envs
  (r.1, ⟨r.2.1⟩, [.regAcq] ++ r.2.2 ++ [.regRel])

/-- One invocation of a `TaskProMgr` operation together with its
environment, used to quantify over all registry operations. -/
inductive RegCall
  | createC (name : String) (task : Nat) (args : Option (List Nat))
      (kwargs : Option KwList)
  | startC (name : String) (env : StartEnv)
  | stopC (name : String) (env : StopEnv)
  | restartC (name : String) (env : RestartEnv)
  | removeC (name : String) (env : StopEnv)
  | infoC (name : String) (alive : Bool)
  | listC
  | allInfoC (alives : List Bool)
  | stopAllC (envs : List StopEnv)

/-- The event trace produced by one registry operation on state `m`. -/
def regTrace (m : TaskProMgr) (c : RegCall) : List LEvent :=
  match c with
  | .createC n task a k => (m.create_task n task a k).2.2
  | .startC n env => (m.start_task n env).2.2
  | .stopC n env => (m.stop_task n env).2.2
  | .restartC n env => (m.restart_task n env).2.2
  | .removeC n env => (m.remove_task n env).2.2
  | .infoC n alive => (m.get_task_info n alive).2
  | .listC => m.list_tasks.2
  | .allInfoC alives => (m.get_all_tasks_info alives).2
  | .stopAllC envs => (m.stop_all_tasks envs).2.2

/-! Keyed lock managers (`tlock.py` and `plock.py`). Lock instances are
identified by a creation stamp drawn from a per-manager counter, which
models Python object identity of the `threading.Lock()` / `FileLock(...)`
objects; for the cross-process variant the instance also carries the
lock-file path it was constructed with. Manager-mutex acquisitions are
recorded in a small event trace. -/

/-- Events of a lock-manager operation: its own cache mutex, and the
construction of a new underlying lock instance. -/
inductive MEvent
  | mAcq
  | mRel
  | newLockEv
deriving DecidableEq

/-- The state of one `KeyTLock` (`tlock.py` lines 13-20): the ordered
cache mapping keys to `threading.Lock()` instances (as creation stamps)
and the stamp counter for the next fresh instance. -/
structure KeyTLock where
  cache : List (String × Nat)
  nextId : Nat
deriving DecidableEq

/-- A freshly constructed `KeyTLock`: empty cache. -/
def KeyTLock.init : KeyTLock := ⟨[], 0⟩

/-- `KeyTLock._add` (`tlock.py` lines 28-36), under the manager mutex:
create a fresh `threading.Lock()` for the key only if it is absent. -/
def KeyTLock._add (m : KeyTLock) (key : String) : KeyTLock × List MEvent :=
  if m.cache.any (fun p => p.1 == key) then
    (m, [.mAcq, .mRel])
  else
    ({ cache := m.cache ++ [(key, m.nextId)], nextId := m.nextId + 1 },
     [.mAcq, .newLockEv, .mRel])

/-- `KeyTLock._del` (`tlock.py` lines 38-45), under the manager mutex:
`self._cache.pop(key, None)` — remove the key's entry if present,
silently do nothing otherwise. -/
def KeyTLock._del (m : KeyTLock) (key : String) : KeyTLock :=
  { m with cache := m.cache.filter (fun p => p.1 != key) }

/-- `KeyTLock._clear` (`tlock.py` lines 47-52), under the manager mutex. -/
def KeyTLock._clear (m : KeyTLock) : KeyTLock :=
  { m with cache := [] }

/-- `KeyTLock.lock` (`tlock.py` lines 66-74): `_add` then look the key
up again (`self._cache[key]`, which raises KeyError — here `none` — if
the entry vanished in between) and wrap it in a `_LockContext` guard.
The guard is represented by the instance it wraps. -/
def KeyTLock.lock (m : KeyTLock) (key : String) :
    Option Nat × KeyTLock × List MEvent :=
  let r := m._add key
  (lookupKey r.1.cache key, r.1, r.2)

/-- A `FileLock` instance of `plock.py`: its Python object identity (a
creation stamp) and the lock-file path it was constructed with. -/
structure FileLockInst where
  lockId : Nat
  path : String
deriving DecidableEq

/-- The state of one `KeyPLock` (`plock.py` lines 13-29): the lock
directory, the ordered cache of `FileLock` instances, and the stamp
counter. -/
structure KeyPLock where
  lock_dir : String
  cache : List (String × FileLockInst)
  nextId : Nat
deriving DecidableEq

/-- A freshly constructed `KeyPLock` over a lock directory. -/
def KeyPLock.init (lock_dir : String) : KeyPLock := ⟨lock_dir, [], 0⟩

/-- `KeyPLock._add` (`plock.py` lines 37-47), under the manager mutex:
create a fresh `FileLock(f"{lock_dir}/{key}.lock")` only if absent. -/
def KeyPLock._add (m : KeyPLock) (key : String) : KeyPLock × List MEvent :=
  if m.cache.any (fun p => p.1 == key) then
    (m, [.mAcq, .mRel])
  else
    ({ m with
        cache := m.cache
          ++ [(key, ⟨m.nextId, m.lock_dir ++ "/" ++ key ++ ".lock"⟩)],
        nextId := m.nextId + 1 },
     [.mAcq, .newLockEv, .mRel])

/-- `KeyPLock._del` (`plock.py` lines 49-56). -/
def KeyPLock._del (m : KeyPLock) (key : String) : KeyPLock :=
  { m with cache := m.cache.filter (fun p => p.1 != key) }

/-- `KeyPLock._clear` (`plock.py` lines 58-63). -/
def KeyPLock._clear (m : KeyPLock) : KeyPLock :=
  { m with cache := [] }

/-- `KeyPLock.lock` (`plock.py` lines 79-87). -/
def KeyPLock.lock (m : KeyPLock) (key : String) :
    Option FileLockInst × KeyPLock × List MEvent :=
  let r := m._add key
  (lookupKey r.1.cache key, r.1, r.2)

/-- One sequential operation on a keyed lock manager, used to quantify
over operation sequences. -/
inductive KLOp
  | addO (k : String)
  | delO (k : String)
  | clearO
  | lockO (k : String)

/-- Run a sequence of operations on a `KeyTLock`. -/
def KeyTLock.run (m : KeyTLock) : List KLOp → KeyTLock
  | [] => m
  | op :: rest =>
    (match op with
     | .addO k => (m._add k).1
     | .delO k => m._del k
     | .clearO => m._clear
     | .lockO k => (m.lock k).2.1).run rest

/-- Run a sequence of operations on a `KeyPLock`. -/
def KeyPLock.run (m : KeyPLock) : List KLOp → KeyPLock
  | [] => m
  | op :: rest =>
    (match op with
     | .addO k => (m._add k).1
     | .delO k => m._del k
     | .clearO => m._clear
     | .lockO k => (m.lock k).2.1).run rest

/-- An operation neither deletes the given key nor clears the cache. -/
def KLOp.keeps (op : KLOp) (key : String) : Bool :=
  match op with
  | .delO k => k != key
  | .clearO => false
  | _ => true

/-! The scoped-lock guard. `_LockContext.__enter__` acquires the wrapped
lock and `__exit__` releases it while ignoring the exception triple, so
under Python `with` semantics the release runs on both the normal and
the raising exit. The guarded run is modelled as the event trace of
entering, running the body (which completes or raises) and exiting. -/

/-- How the protected region ends: normal completion or an exception. -/
inductive BodyOutcome
  | normal
  | raised
deriving DecidableEq

/-- Events of one guarded critical section. -/
inductive GEvent
  | acquireEv
  | releaseEv
  | printEv
  | bodyDoneEv
  | bodyRaiseEv
deriving DecidableEq

/-- `KeyTLock._LockContext.__enter__` (`tlock.py` lines 60-62):
acquire the wrapped lock. -/
def tlockEnterEvents : List GEvent := [.acquireEv]

/-- `KeyTLock._LockContext.__exit__` (`tlock.py` lines 63-64): release
the wrapped lock, with no inspection of the exception triple. -/
def tlockExitEvents (_excRaised : Bool) : List GEvent :=
  [.releaseEv]

/-- `KeyPLock._LockContext.__enter__` (`plock.py` lines 71-74):
acquire the wrapped file lock, then print. -/
def plockEnterEvents : List GEvent := [.acquireEv, .printEv]

/-- `KeyPLock._LockContext.__exit__` (`plock.py` lines 75-77): release
the wrapped file lock, then print, with no inspection of the exception
triple. -/
def plockExitEvents (_excRaised : Bool) : List GEvent :=
  [.releaseEv, .printEv]

/-- Python `with` semantics over enter/exit event lists: run
`__enter__`, then the body; `__exit__` runs whether the body completed
or raised (and since both guards' `__exit__` returns `None`, a raised
exception propagates afterwards). -/
def pyWith (enter : List GEvent) (exitEvents : Bool → List GEvent)
    (body : BodyOutcome) : List GEvent :=
  match body with
  | .normal => enter ++ [.bodyDoneEv] ++ exitEvents false
  | .raised => enter ++ [.bodyRaiseEv] ++ exitEvents true

/-- A full guarded run through `KeyTLock._LockContext`. -/
def tlockScopedRun (body : BodyOutcome) : List GEvent :=
  pyWith tlockEnterEvents tlockExitEvents body

/-- A full guarded run through `KeyPLock._LockContext`. -/
def plockScopedRun (body : BodyOutcome) : List GEvent :=
  pyWith plockEnterEvents plockExitEvents body

/-! Predicates over event traces, used to state the lock-coverage
properties of the registry operations. -/

/-- Is the event an acquisition or release of the registry mutex? -/
def isRegEvent : LEvent → Bool
  | .regAcq => true
  | .regRel => true
  | _ => false

/-- The trace touches the registry mutex nowhere. -/
def noReg (tr : List LEvent) : Bool :=
  tr.all (fun e => !isRegEvent e)

/-- The trace acquires the registry mutex first, releases it last, and
touches it nowhere in between: the operation holds the registry mutex
for its entire body. -/
def bracketOk (tr : List LEvent) : Bool :=
  match tr with
  | .regAcq :: rest =>
      !rest.isEmpty && noReg rest.dropLast && (rest.getLast? == some .regRel)
  | _ => false

/-- Nesting depths (registry mutex, task mutex) after one event. -/
def stepDepths (d : Nat × Nat) (e : LEvent) : Nat × Nat :=
  match e with
  | .regAcq => (d.1 + 1, d.2)
  | .regRel => (d.1 - 1, d.2)
  | .taskAcq => (d.1, d.2 + 1)
  | .taskRel => (d.1, d.2 - 1)
  | _ => d

/-- Nesting depths after a whole trace. -/
def depthsAfter (d : Nat × Nat) (tr : List LEvent) : Nat × Nat :=
  tr.foldl stepDepths d

/-- At one event: if it is the readiness wait, the registry mutex must
be held and the task mutex must not be; other events pass. -/
def waitCheckHeld (d : Nat × Nat) (e : LEvent) : Bool :=
  match e with
  | .waitReadyEv => decide (0 < d.1) && (d.2 == 0)
  | _ => true

/-- Starting from depths `d`, every readiness wait in the trace happens
while the registry mutex is held and the task mutex is not. -/
def waitHeldGo : Nat × Nat → List LEvent → Bool
  | _, [] => true
  | d, e :: rest => waitCheckHeld d e && waitHeldGo (stepDepths d e) rest

/-- Every readiness wait in the trace happens while the registry mutex
is held and the task mutex is not (whole trace, starting unlocked). -/
def waitUnderRegOutsideTask (tr : List LEvent) : Bool :=
  waitHeldGo (0, 0) tr

/-- At one event: if it is the readiness wait, the registry mutex must
not be held; other events pass. -/
def waitCheckFree (d : Nat × Nat) (e : LEvent) : Bool :=
  match e with
  | .waitReadyEv => d.1 == 0
  | _ => true

/-- Starting from depths `d`, every readiness wait in the trace happens
while the registry mutex is NOT held. -/
def waitFreeGo : Nat × Nat → List LEvent → Bool
  | _, [] => true
  | d, e :: rest => waitCheckFree d e && waitFreeGo (stepDepths d e) rest

/-- Every readiness wait in the trace happens while the registry mutex
is not held (whole trace, starting unlocked). -/
def waitOutsideReg (tr : List LEvent) : Bool :=
  waitFreeGo (0, 0) tr

/-- The trace contains a readiness wait. -/
def hasWaitReady (tr : List LEvent) : Bool :=
  tr.any (fun e => e == .waitReadyEv)

/-! Helper definitions restating, in direct recursions, what
`stop_all_tasks` is claimed to compute; `claim8` relates the source
loop to them. -/

/-- Spec-side recomputation: the task map with `stop` applied to every
entry (same positional environments as `stopAllLoop`). -/
def stopEach : List (String × TaskPro) → List StopEnv →
    List (String × TaskPro)
  | [], _ => []
  | (n, t) :: rest, envs =>
    (n, (t.stop (envs.headD ⟨true, true⟩)).2.1) :: stopEach rest envs.tail

/-- Spec-side recomputation: the list of individual stop results. -/
def stopResults : List (String × TaskPro) → List StopEnv → List Bool
  | [], _ => []
  | (_n, t) :: rest, envs =>
    (t.stop (envs.headD ⟨true, true⟩)).1 :: stopResults rest envs.tail

/-- A lifecycle operation on one task, used to quantify over arbitrary
interleavings of `start`, `stop` and `restart`. -/
inductive LifeOp
  | startO (e : StartEnv)
  | stopO (e : StopEnv)
  | restartO (e : RestartEnv)

/-- Run a sequence of lifecycle operations on one task. -/
def runLife : TaskPro → List LifeOp → TaskPro
  | t, [] => t
  | t, op :: rest =>
    runLife
      (match op with
       | .startO e => (t.start e).2.1
       | .stopO e => (t.stop e).2.1
       | .restartO e => (t.restart e).2.1)
      rest

/-! Sample concrete states used by witnesses and counterexamples. -/

/-- A task that has been `set` but never started: status READY, no
process tracked. -/
def sampleTask : TaskPro :=
  (TaskPro.init.set 7 "demo" none (some [("k", .user 3)])).2.1

/-- A task with a tracked process (as left by a confirmed start). -/
def sampleTracked : TaskPro :=
  { sampleTask with process := some ⟨42⟩, status := some .running,
                    startSuccessEvent := true }

/-- A registry holding one bound task under the name `a`. -/
def sampleMgr : TaskProMgr := ⟨[("a", sampleTask)]⟩

/-- Is the event a process spawn? -/
def isSpawn : LEvent → Bool
  | .spawnEv _ _ => true
  | _ => false

/-- Number of process spawns in a trace. -/
def countSpawn (tr : List LEvent) : Nat :=
  (tr.filter isSpawn).length

/-- C1: `start(timeout)` returns false without spawning anything when
the worker is unset or a live process is already tracked; otherwise it
clears both signal flags and spawns the worker; on readiness
confirmation it sets status RUNNING and returns true; on timeout it
terminates the spawned process (when it is still alive at the cleanup
check; a process that already exited cannot be and is not terminated),
drops the handle, sets status STOPPED and returns false. -/
theorem claim1_start_contract (t : TaskPro) (env : StartEnv) :
    ((t.task = none ∨ (t.process.isSome = true ∧ env.oldAlive = true)) →
      (t.start env).1 = false ∧ (t.start env).2.1 = t ∧
      countSpawn (t.start env).2.2 = 0)
  ∧ (t.task ≠ none → (t.process.isSome = true → env.oldAlive = false) →
      countSpawn (t.start env).2.2 = 1 ∧
      (t.start env).2.2.take 4 =
        [.taskAcq, .clearSignalsEv,
         .spawnEv t.args (spawnKwargs (t.kwargs.getD [])), .taskRel] ∧
      (t.start env).2.1.stopEvent = false ∧
      (env.ready = true →
        (t.start env).1 = true ∧
        (t.start env).2.1.status = some .running ∧
        (t.start env).2.1.process = some ⟨env.newPid⟩) ∧
      (env.ready = false →
        (t.start env).1 = false ∧
        (t.start env).2.1.process = none ∧
        (t.start env).2.1.status = some .stopped ∧
        (t.start env).2.1.startSuccessEvent = false ∧
        (env.aliveAtTimeout = true → LEvent.terminateEv ∈ (t.start env).2.2))) := by
  obtain ⟨task, name, args, kwargs, status, se, sse, proc⟩ := t
  obtain ⟨oa, np, rd, aat⟩ := env
  cases task <;> cases proc <;> cases oa <;> cases rd <;> cases aat <;>
    simp [TaskPro.start, countSpawn, isSpawn]

/-- Witness for C1: a concrete bound, untracked task started in an
environment that confirms readiness. -/
theorem claim1_start_contract_witness :
    (sampleTask.start ⟨false, 9, true, false⟩).1 = true ∧
    (sampleTask.start ⟨false, 9, true, false⟩).2.1.status = some .running ∧
    (sampleTask.start ⟨false, 9, true, false⟩).2.1.process = some ⟨9⟩ := by
  have h := (claim1_start_contract sampleTask ⟨false, 9, true, false⟩).2
    (by decide) (by decide)
  exact ⟨(h.2.2.2.1 rfl).1, (h.2.2.2.1 rfl).2.1, (h.2.2.2.1 rfl).2.2⟩

/-- C2: `stop()` returns false exactly when no process is tracked, and
returns true whenever a process was tracked (already dead, gracefully
exited, or force-terminated alike), in which case it leaves the handle
cleared and the status STOPPED. -/
theorem claim2_stop_contract (t : TaskPro) (env : StopEnv) :
    ((t.stop env).1 = false ↔ t.process = none)
  ∧ (t.process ≠ none →
      (t.stop env).1 = true ∧
      (t.stop env).2.1.process = none ∧
      (t.stop env).2.1.status = some .stopped) := by
  obtain ⟨task, name, args, kwargs, status, se, sse, proc⟩ := t
  obtain ⟨af, ag⟩ := env
  cases proc <;> cases af <;> cases ag <;> simp [TaskPro.stop]

/-- Witness for C2: stopping a concrete task with a tracked process
that ignores the stop signal (forced-termination path). -/
theorem claim2_stop_contract_witness :
    (sampleTracked.stop ⟨true, true⟩).1 = true ∧
    (sampleTracked.stop ⟨true, true⟩).2.1.process = none ∧
    (sampleTracked.stop ⟨true, true⟩).2.1.status = some .stopped :=
  (claim2_stop_contract sampleTracked ⟨true, true⟩).2 (by decide)

/-- Counterexample to C3 as stated: a task that was `set` but never
started has no tracked process; `stop()` then returns false and leaves
the status READY, not STOPPED — so the claimed postcondition does not
hold without the precondition that a process was tracked. -/
theorem claim3_counterexample :
    (sampleTask.stop ⟨true, true⟩).1 = false ∧
    ((sampleTask.stop ⟨true, true⟩).2.1.get_status).1 = some .ready ∧
    ((sampleTask.stop ⟨true, true⟩).2.1.get_status).1 ≠ some .stopped := by
  decide

/-- C3 (amended): after `stop()` returns, `isAlive()` is false for
every task; `getStatus()==STOPPED` additionally holds whenever a
process was tracked, i.e. whenever `stop()` returned true — when no
process was tracked, `stop()` returns false and leaves the status
unchanged. -/
theorem claim3_stop_postcondition (t : TaskPro) (env : StopEnv) (alive : Bool) :
    (((t.stop env).2.1.is_alive alive).1 = false)
  ∧ ((t.stop env).1 = true →
      ((t.stop env).2.1.get_status).1 = some .stopped) := by
  obtain ⟨task, name, args, kwargs, status, se, sse, proc⟩ := t
  obtain ⟨af, ag⟩ := env
  cases proc <;> cases af <;> cases ag <;>
    simp [TaskPro.stop, TaskPro.is_alive, TaskPro.get_status]

/-- Witness for C3 (amended): the forced-termination stop of a tracked
process leaves the status STOPPED and liveness false. -/
theorem claim3_stop_postcondition_witness :
    ((sampleTracked.stop ⟨true, true⟩).2.1.is_alive true).1 = false ∧
    ((sampleTracked.stop ⟨true, true⟩).2.1.get_status).1 = some .stopped := by
  have h := claim3_stop_postcondition sampleTracked ⟨true, true⟩ true
  exact ⟨h.1, h.2 (by decide)⟩

/-- Membership in an association list agrees with lookup success. -/
theorem lookupKey_isSome_eq_any {α : Type} (c : List (String × α)) (k : String) :
    (lookupKey c k).isSome = c.any (fun p => p.1 == k) := by
  induction c with
  | nil => rfl
  | cons a rest ih =>
    by_cases h : a.1 == k <;>
      simp [lookupKey, List.find?_cons, h, List.any_cons] <;>
      simpa [lookupKey] using ih

/-- Appending entries on the right does not change a lookup that
already succeeds. -/
theorem lookupKey_append_left {α : Type} (c d : List (String × α)) (k : String)
    (h : (lookupKey c k).isSome = true) :
    lookupKey (c ++ d) k = lookupKey c k := by
  induction c with
  | nil => simp [lookupKey] at h
  | cons a rest ih =>
    by_cases ha : a.1 == k <;>
      simp [lookupKey, List.find?_cons, ha] at h ⊢ <;>
      simpa [lookupKey] using ih (by simpa [lookupKey] using h)

/-- A lookup that fails on the left continues into the appended part. -/
theorem lookupKey_append_of_none {α : Type} (c d : List (String × α)) (k : String)
    (h : lookupKey c k = none) :
    lookupKey (c ++ d) k = lookupKey d k := by
  induction c with
  | nil => rfl
  | cons a rest ih =>
    by_cases ha : a.1 == k <;>
      simp [lookupKey, List.find?_cons, ha] at h ⊢ <;>
      simpa [lookupKey] using ih (by simpa [lookupKey] using h)

/-- Removing a different key's entries does not change a lookup. -/
theorem lookupKey_filter_ne {α : Type} (c : List (String × α)) (k other : String)
    (h : other ≠ k) :
    lookupKey (c.filter (fun p => p.1 != k)) other = lookupKey c other := by
  induction c with
  | nil => rfl
  | cons a rest ih =>
    by_cases ha : a.1 = k
    · have h1 : (a.1 != k) = false := by simp [ha]
      have h2 : (a.1 == other) = false := by
        simp [ha]; exact fun hh => h hh.symm
      simp [lookupKey, List.filter_cons, h1, List.find?_cons, h2]
      simpa [lookupKey] using ih
    · have h1 : (a.1 != k) = true := by simp [ha]
      by_cases hb : a.1 == other <;>
        simp [lookupKey, List.filter_cons, h1, List.find?_cons, hb] <;>
        simpa [lookupKey] using ih

/-- After removing a key's entries, its lookup fails. -/
theorem lookupKey_filter_self {α : Type} (c : List (String × α)) (k : String) :
    lookupKey (c.filter (fun p => p.1 != k)) k = none := by
  induction c with
  | nil => rfl
  | cons a rest ih =>
    by_cases ha : a.1 = k
    · simpa [List.filter_cons, ha] using ih
    · have h1 : (a.1 != k) = true := by simp [ha]
      have h2 : (a.1 == k) = false := by simp [ha]
      simp [lookupKey, List.filter_cons, h1, List.find?_cons, h2]
      try simpa [lookupKey] using ih

/-- A failing lookup means no entry of the list carries the key. -/
theorem lookupKey_eq_none_iff {α : Type} (c : List (String × α)) (k : String) :
    lookupKey c k = none ↔ ∀ p ∈ c, ¬(p.1 == k) := by
  simp [lookupKey, List.find?_eq_none]

/-- C5: the guard returned by `lock(key)` acquires the underlying lock
on entry and releases it exactly once on every exit of the guarded
region — normal completion and exception alike — for both the
in-process and the cross-process variant. -/
theorem claim5_guard_always_releases (body : BodyOutcome) :
    (tlockScopedRun body).count .acquireEv = 1 ∧
    (tlockScopedRun body).count .releaseEv = 1 ∧
    (plockScopedRun body).count .acquireEv = 1 ∧
    (plockScopedRun body).count .releaseEv = 1 ∧
    tlockScopedRun .normal = [.acquireEv, .bodyDoneEv, .releaseEv] ∧
    tlockScopedRun .raised = [.acquireEv, .bodyRaiseEv, .releaseEv] ∧
    plockScopedRun .normal =
      [.acquireEv, .printEv, .bodyDoneEv, .releaseEv, .printEv] ∧
    plockScopedRun .raised =
      [.acquireEv, .printEv, .bodyRaiseEv, .releaseEv, .printEv] := by
  cases body <;> decide

/-- C6: `create_task` with a name already present returns false and
mutates nothing (the registry state, hence the existing task and every
other entry, is unchanged); with a fresh name it constructs a fresh
`TaskPro`, binds the worker via `set`, appends it under the name, and
returns true. -/
theorem claim6_create_task (m : TaskProMgr) (name : String) (task : Nat)
    (args : Option (List Nat)) (kwargs : Option KwList) :
    ((lookupTask m name).isSome = true →
      (m.create_task name task args kwargs).1 = false ∧
      (m.create_task name task args kwargs).2.1 = m)
  ∧ ((lookupTask m name).isSome = false →
      (m.create_task name task args kwargs).1 = true ∧
      (m.create_task name task args kwargs).2.1.tasks
        = m.tasks ++ [(name, (TaskPro.init.set task name args kwargs).2.1)] ∧
      (TaskPro.init.set task name args kwargs).2.1.task = some task ∧
      (TaskPro.init.set task name args kwargs).2.1.status = some .ready) := by
  have hany := lookupKey_isSome_eq_any m.tasks name
  constructor
  · intro h
    have hg : m.tasks.any (fun p => p.1 == name) = true := by
      rw [← hany]; exact h
    simp [TaskProMgr.create_task, hg]
  · intro h
    have hg : m.tasks.any (fun p => p.1 == name) = false := by
      rw [← hany]; exact h
    simp [TaskProMgr.create_task, hg, TaskPro.set, TaskPro.init]

/-- Witness for C6: creating a duplicate of the existing name `a` in
the sample registry fails and leaves the registry unchanged. -/
theorem claim6_create_task_witness :
    (sampleMgr.create_task "a" 1 none none).1 = false ∧
    (sampleMgr.create_task "a" 1 none none).2.1 = sampleMgr :=
  (claim6_create_task sampleMgr "a" 1 none none).1 (by decide)

/-- The loop of `stop_all_tasks` computes the pointwise stops and the
conjunction of their results. -/
theorem stopAllLoop_spec (ts : List (String × TaskPro)) : ∀ envs : List StopEnv,
    (stopAllLoop ts envs).1 = (stopResults ts envs).all (fun b => b) ∧
    (stopAllLoop ts envs).2.1 = stopEach ts envs := by
  induction ts with
  | nil => intro envs; simp [stopAllLoop, stopResults, stopEach]
  | cons a rest ih =>
    intro envs
    obtain ⟨n, t⟩ := a
    simp [stopAllLoop, stopResults, stopEach, (ih envs.tail).1, (ih envs.tail).2]

/-- C8: `stop_all_tasks` stops every registered task in order without
short-circuiting (the resulting map is the pointwise stop of every
entry) and returns true exactly when every individual stop returned
true. -/
theorem claim8_stop_all_tasks (m : TaskProMgr) (envs : List StopEnv) :
    (m.stop_all_tasks envs).2.1.tasks = stopEach m.tasks envs ∧
    (m.stop_all_tasks envs).1 = (stopResults m.tasks envs).all (fun b => b) := by
  have h := stopAllLoop_spec m.tasks envs
  simp [TaskProMgr.stop_all_tasks, h.1, h.2]

/-- `start` never touches the stored kwargs. -/
theorem start_kwargs (t : TaskPro) (e : StartEnv) :
    (t.start e).2.1.kwargs = t.kwargs := by
  obtain ⟨task, name, args, kwargs, status, se, sse, proc⟩ := t
  obtain ⟨oa, np, rd, aat⟩ := e
  cases task <;> cases proc <;> cases oa <;> cases rd <;>
    simp [TaskPro.start]

/-- `start` never touches the stored args. -/
theorem start_args (t : TaskPro) (e : StartEnv) :
    (t.start e).2.1.args = t.args := by
  obtain ⟨task, name, args, kwargs, status, se, sse, proc⟩ := t
  obtain ⟨oa, np, rd, aat⟩ := e
  cases task <;> cases proc <;> cases oa <;> cases rd <;>
    simp [TaskPro.start]

/-- `stop` never touches the stored kwargs. -/
theorem stop_kwargs (t : TaskPro) (e : StopEnv) :
    (t.stop e).2.1.kwargs = t.kwargs := by
  obtain ⟨task, name, args, kwargs, status, se, sse, proc⟩ := t
  obtain ⟨af, ag⟩ := e
  cases proc <;> cases af <;> cases ag <;>
    simp [TaskPro.stop]

/-- `stop` never touches the stored args. -/
theorem stop_args (t : TaskPro) (e : StopEnv) :
    (t.stop e).2.1.args = t.args := by
  obtain ⟨task, name, args, kwargs, status, se, sse, proc⟩ := t
  obtain ⟨af, ag⟩ := e
  cases proc <;> cases af <;> cases ag <;>
    simp [TaskPro.stop]

/-- `restart` never touches the stored kwargs. -/
theorem restart_kwargs (t : TaskPro) (e : RestartEnv) :
    (t.restart e).2.1.kwargs = t.kwargs := by
  unfold TaskPro.restart
  by_cases h : t.task.isNone
  · simp [h]
  · by_cases h2 : (t.process.isSome && e.aliveAtCheck)
    · simp [h, h2, start_kwargs, stop_kwargs]
    · simp [h, h2, start_kwargs]

/-- `restart` never touches the stored args. -/
theorem restart_args (t : TaskPro) (e : RestartEnv) :
    (t.restart e).2.1.args = t.args := by
  unfold TaskPro.restart
  by_cases h : t.task.isNone
  · simp [h]
  · by_cases h2 : (t.process.isSome && e.aliveAtCheck)
    · simp [h, h2, start_args, stop_args]
    · simp [h, h2, start_args]

/-- No sequence of lifecycle operations touches the stored kwargs. -/
theorem runLife_kwargs : ∀ (ops : List LifeOp) (t : TaskPro),
    (runLife t ops).kwargs = t.kwargs := by
  intro ops
  induction ops with
  | nil => intro t; rfl
  | cons op rest ih =>
    intro t
    cases op with
    | startO e =>
      show (runLife (t.start e).2.1 rest).kwargs = t.kwargs
      rw [ih, start_kwargs]
    | stopO e =>
      show (runLife (t.stop e).2.1 rest).kwargs = t.kwargs
      rw [ih, stop_kwargs]
    | restartO e =>
      show (runLife (t.restart e).2.1 rest).kwargs = t.kwargs
      rw [ih, restart_kwargs]

/-- No sequence of lifecycle operations touches the stored args. -/
theorem runLife_args : ∀ (ops : List LifeOp) (t : TaskPro),
    (runLife t ops).args = t.args := by
  intro ops
  induction ops with
  | nil => intro t; rfl
  | cons op rest ih =>
    intro t
    cases op with
    | startO e =>
      show (runLife (t.start e).2.1 rest).args = t.args
      rw [ih, start_args]
    | stopO e =>
      show (runLife (t.stop e).2.1 rest).args = t.args
      rw [ih, stop_args]
    | restartO e =>
      show (runLife (t.restart e).2.1 rest).args = t.args
      rw [ih, restart_args]

/-- C9: `start` injects the stop event and the start-success event into
a copy of the stored kwargs before spawning (the spawn receives
`spawnKwargs` of the stored dictionary, the stored dictionary itself is
untouched); `start`, `stop` and `restart` — in any order — never mutate
the stored args and kwargs; and `info()` reports exactly the kwargs
dictionary originally passed to `set`. -/
theorem claim9_kwargs_frame (t : TaskPro) (e : StartEnv)
    (task : Nat) (name : String) (args : Option (List Nat)) (kw : KwList)
    (ops : List LifeOp) (alive : Bool) :
    ((t.start e).2.1.kwargs = t.kwargs ∧ (t.start e).2.1.args = t.args
      ∧ (t.stop ⟨e.oldAlive, e.ready⟩).2.1.kwargs = t.kwargs)
  ∧ (t.task ≠ none → (t.process.isSome = true → e.oldAlive = false) →
      LEvent.spawnEv t.args (spawnKwargs (t.kwargs.getD [])) ∈ (t.start e).2.2)
  ∧ (((runLife ((TaskPro.init.set task name args (some kw)).2.1) ops).info
        alive).1.kwargs = some kw) := by
  refine ⟨⟨start_kwargs t e, start_args t e, stop_kwargs t _⟩, ?_, ?_⟩
  · intro h1 h2
    obtain ⟨ta, nm, ar, kwargs, status, se, sse, proc⟩ := t
    cases ta with
    | none => exact absurd rfl h1
    | some x =>
      cases proc <;> cases hoa : e.oldAlive <;> cases hr : e.ready <;>
        simp_all [TaskPro.start]
  · rw [TaskPro.info]
    simp [runLife_kwargs, TaskPro.set, TaskPro.init]

/-- Witness for C9: starting the sample task spawns the worker with the
stored kwargs copy extended by the two injected events. -/
theorem claim9_kwargs_frame_witness :
    LEvent.spawnEv sampleTask.args (spawnKwargs (sampleTask.kwargs.getD []))
      ∈ (sampleTask.start ⟨false, 9, true, false⟩).2.2 :=
  (claim9_kwargs_frame sampleTask ⟨false, 9, true, false⟩ 7 "demo" none []
    [] true).2.1 (by decide) (by decide)

/-- `KeyTLock._add` preserves any lookup that already succeeds
(whether or not the added key is the one looked up). -/
theorem tlockAdd_lookup_stable (m : KeyTLock) (k key : String)
    (hp : (lookupKey m.cache key).isSome = true) :
    lookupKey (m._add k).1.cache key = lookupKey m.cache key := by
  unfold KeyTLock._add
  by_cases h : m.cache.any (fun p => p.1 == k)
  · simp [h]
  · simp [h]
    exact lookupKey_append_left _ _ _ hp

/-- After `KeyTLock._add`, the added key's lookup succeeds. -/
theorem tlockAdd_mem (m : KeyTLock) (k : String) :
    (lookupKey (m._add k).1.cache k).isSome = true := by
  by_cases h : m.cache.any (fun p => p.1 == k)
  · have hm : (m._add k).1 = m := by simp [KeyTLock._add, h]
    rw [hm, lookupKey_isSome_eq_any]
    exact h
  · have h2 : m.cache.any (fun p => p.1 == k) = false := by
      simp only [Bool.not_eq_true] at h
      exact h
    have hcache : (m._add k).1.cache = m.cache ++ [(k, m.nextId)] := by
      simp [KeyTLock._add, h2]
    have hn : lookupKey m.cache k = none := by
      cases ho : lookupKey m.cache k with
      | none => rfl
      | some v =>
        have hs := lookupKey_isSome_eq_any m.cache k
        rw [ho, h2] at hs
        simp at hs
    rw [hcache, lookupKey_append_of_none _ _ _ hn]
    simp [lookupKey, List.find?_cons]

/-- Any run of operations that neither deletes the key nor clears the
cache preserves the key's (successful) lookup in a `KeyTLock`. -/
theorem tlockRun_lookup_stable : ∀ (ops : List KLOp) (m : KeyTLock)
    (key : String), ops.all (fun op => op.keeps key) = true →
    (lookupKey m.cache key).isSome = true →
    lookupKey (m.run ops).cache key = lookupKey m.cache key := by
  intro ops
  induction ops with
  | nil => intro m key _ _; rfl
  | cons op rest ih =>
    intro m key hall hp
    rw [List.all_cons, Bool.and_eq_true] at hall
    cases op with
    | addO k =>
      have hstep := tlockAdd_lookup_stable m k key hp
      show lookupKey ((m._add k).1.run rest).cache key = lookupKey m.cache key
      rw [ih _ key hall.2 (by rw [hstep]; exact hp), hstep]
    | delO k =>
      have hk : k ≠ key := by
        have := hall.1
        simp [KLOp.keeps] at this
        exact this
      have hstep : lookupKey (m._del k).cache key = lookupKey m.cache key :=
        lookupKey_filter_ne m.cache k key hk.symm
      show lookupKey ((m._del k).run rest).cache key = lookupKey m.cache key
      rw [ih _ key hall.2 (by rw [hstep]; exact hp), hstep]
    | clearO =>
      have := hall.1
      simp [KLOp.keeps] at this
    | lockO k =>
      have hstep := tlockAdd_lookup_stable m k key hp
      show lookupKey ((m.lock k).2.1.run rest).cache key = lookupKey m.cache key
      rw [show (m.lock k).2.1 = (m._add k).1 from rfl,
          ih _ key hall.2 (by rw [hstep]; exact hp), hstep]

/-- `KeyPLock._add` preserves any lookup that already succeeds. -/
theorem plockAdd_lookup_stable (m : KeyPLock) (k key : String)
    (hp : (lookupKey m.cache key).isSome = true) :
    lookupKey (m._add k).1.cache key = lookupKey m.cache key := by
  unfold KeyPLock._add
  by_cases h : m.cache.any (fun p => p.1 == k)
  · simp [h]
  · simp [h]
    exact lookupKey_append_left _ _ _ hp

/-- After `KeyPLock._add`, the added key's lookup succeeds. -/
theorem plockAdd_mem (m : KeyPLock) (k : String) :
    (lookupKey (m._add k).1.cache k).isSome = true := by
  by_cases h : m.cache.any (fun p => p.1 == k)
  · have hm : (m._add k).1 = m := by simp [KeyPLock._add, h]
    rw [hm, lookupKey_isSome_eq_any]
    exact h
  · have h2 : m.cache.any (fun p => p.1 == k) = false := by
      simp only [Bool.not_eq_true] at h
      exact h
    have hcache : (m._add k).1.cache
        = m.cache ++ [(k, ⟨m.nextId, m.lock_dir ++ "/" ++ k ++ ".lock"⟩)] := by
      simp [KeyPLock._add, h2]
    have hn : lookupKey m.cache k = none := by
      cases ho : lookupKey m.cache k with
      | none => rfl
      | some v =>
        have hs := lookupKey_isSome_eq_any m.cache k
        rw [ho, h2] at hs
        simp at hs
    rw [hcache, lookupKey_append_of_none _ _ _ hn]
    simp [lookupKey, List.find?_cons]

/-- Any run of operations that neither deletes the key nor clears the
cache preserves the key's (successful) lookup in a `KeyPLock`. -/
theorem plockRun_lookup_stable : ∀ (ops : List KLOp) (m : KeyPLock)
    (key : String), ops.all (fun op => op.keeps key) = true →
    (lookupKey m.cache key).isSome = true →
    lookupKey (m.run ops).cache key = lookupKey m.cache key := by
  intro ops
  induction ops with
  | nil => intro m key _ _; rfl
  | cons op rest ih =>
    intro m key hall hp
    rw [List.all_cons, Bool.and_eq_true] at hall
    cases op with
    | addO k =>
      have hstep := plockAdd_lookup_stable m k key hp
      show lookupKey ((m._add k).1.run rest).cache key = lookupKey m.cache key
      rw [ih _ key hall.2 (by rw [hstep]; exact hp), hstep]
    | delO k =>
      have hk : k ≠ key := by
        have := hall.1
        simp [KLOp.keeps] at this
        exact this
      have hstep : lookupKey (m._del k).cache key = lookupKey m.cache key :=
        lookupKey_filter_ne m.cache k key hk.symm
      show lookupKey ((m._del k).run rest).cache key = lookupKey m.cache key
      rw [ih _ key hall.2 (by rw [hstep]; exact hp), hstep]
    | clearO =>
      have := hall.1
      simp [KLOp.keeps] at this
    | lockO k =>
      have hstep := plockAdd_lookup_stable m k key hp
      show lookupKey ((m.lock k).2.1.run rest).cache key = lookupKey m.cache key
      rw [show (m.lock k).2.1 = (m._add k).1 from rfl,
          ih _ key hall.2 (by rw [hstep]; exact hp), hstep]

/-- C4: in both variants, the first `lock(key)` on a previously-unseen
key creates the key's underlying lock instance under the manager's own
mutex (the creation event sits between the mutex acquisition and
release) and hands back a guard wrapping the fresh instance; and after
any operation sequence that neither deletes that key nor clears the
cache, `lock(key)` returns a guard wrapping the same instance as the
first call. -/
theorem claim4_lock_instance_stable (mt : KeyTLock) (mp : KeyPLock)
    (key : String) (ops : List KLOp) :
    ((lookupKey mt.cache key = none →
        (mt.lock key).2.2 = [.mAcq, .newLockEv, .mRel] ∧
        (mt.lock key).1 = some mt.nextId)
     ∧ (ops.all (fun op => op.keeps key) = true →
        (((mt.lock key).2.1.run ops).lock key).1 = (mt.lock key).1 ∧
        ((mt.lock key).1).isSome = true))
  ∧ ((lookupKey mp.cache key = none →
        (mp.lock key).2.2 = [.mAcq, .newLockEv, .mRel] ∧
        (mp.lock key).1
          = some ⟨mp.nextId, mp.lock_dir ++ "/" ++ key ++ ".lock"⟩)
     ∧ (ops.all (fun op => op.keeps key) = true →
        (((mp.lock key).2.1.run ops).lock key).1 = (mp.lock key).1 ∧
        ((mp.lock key).1).isSome = true)) := by
  constructor
  · constructor
    · intro hnone
      have hany : mt.cache.any (fun p => p.1 == key) = false := by
        rw [← lookupKey_isSome_eq_any, hnone]; rfl
      constructor
      · simp [KeyTLock.lock, KeyTLock._add, hany]
      · show lookupKey ((mt._add key).1).cache key = some mt.nextId
        have hcache : (mt._add key).1.cache
            = mt.cache ++ [(key, mt.nextId)] := by
          simp [KeyTLock._add, hany]
        rw [hcache, lookupKey_append_of_none _ _ _ hnone]
        simp [lookupKey, List.find?_cons]
    · intro hkeeps
      have hmem : (lookupKey (mt._add key).1.cache key).isSome = true :=
        tlockAdd_mem mt key
      have hrun := tlockRun_lookup_stable ops (mt._add key).1 key hkeeps hmem
      have hmem2 : (lookupKey ((mt._add key).1.run ops).cache key).isSome = true := by
        rw [hrun]; exact hmem
      constructor
      · show lookupKey ((((mt._add key).1.run ops))._add key).1.cache key
            = lookupKey (mt._add key).1.cache key
        rw [tlockAdd_lookup_stable _ key key hmem2, hrun]
      · exact hmem
  · constructor
    · intro hnone
      have hany : mp.cache.any (fun p => p.1 == key) = false := by
        rw [← lookupKey_isSome_eq_any, hnone]; rfl
      constructor
      · simp [KeyPLock.lock, KeyPLock._add, hany]
      · show lookupKey ((mp._add key).1).cache key
            = some ⟨mp.nextId, mp.lock_dir ++ "/" ++ key ++ ".lock"⟩
        have hcache : (mp._add key).1.cache
            = mp.cache ++ [(key, ⟨mp.nextId, mp.lock_dir ++ "/" ++ key ++ ".lock"⟩)] := by
          simp [KeyPLock._add, hany]
        rw [hcache, lookupKey_append_of_none _ _ _ hnone]
        simp [lookupKey, List.find?_cons]
    · intro hkeeps
      have hmem : (lookupKey (mp._add key).1.cache key).isSome = true :=
        plockAdd_mem mp key
      have hrun := plockRun_lookup_stable ops (mp._add key).1 key hkeeps hmem
      have hmem2 : (lookupKey ((mp._add key).1.run ops).cache key).isSome = true := by
        rw [hrun]; exact hmem
      constructor
      · show lookupKey ((((mp._add key).1.run ops))._add key).1.cache key
            = lookupKey (mp._add key).1.cache key
        rw [plockAdd_lookup_stable _ key key hmem2, hrun]
      · exact hmem

/-- Witness for C4: on fresh managers, locking `r`, then adding another
key, deleting another key and locking `r` again, hands back the same
first instance (stamp 0) in both variants. -/
theorem claim4_lock_instance_stable_witness :
    ((KeyTLock.init.lock "r").2.2 = [.mAcq, .newLockEv, .mRel] ∧
     (KeyTLock.init.lock "r").1 = some KeyTLock.init.nextId) ∧
    ((((KeyTLock.init.lock "r").2.1.run
        [.lockO "s", .delO "s", .lockO "r"]).lock "r").1
      = (KeyTLock.init.lock "r").1) ∧
    (((KeyPLock.init "./pylocks").lock "r").1
      = some ⟨(KeyPLock.init "./pylocks").nextId, "./pylocks" ++ "/" ++ "r" ++ ".lock"⟩) := by
  have h := claim4_lock_instance_stable KeyTLock.init (KeyPLock.init "./pylocks")
    "r" [.lockO "s", .delO "s", .lockO "r"]
  exact ⟨h.1.1 (by decide), (h.1.2 (by decide)).1, (h.2.1 (by decide)).2⟩

/-- C10: in both variants, deleting an absent key changes nothing at
all, clearing an empty cache changes nothing at all (`dict.pop(key,
None)` and `dict.clear()` raise no error), and `_del` removes at most
the given key: its own lookup fails afterwards while every other key's
cached instance is unchanged. -/
theorem claim10_del_clear_safe (mt : KeyTLock) (mp : KeyPLock)
    (k other : String) :
    (lookupKey mt.cache k = none → mt._del k = mt)
  ∧ (mt.cache = [] → mt._clear = mt)
  ∧ lookupKey (mt._del k).cache k = none
  ∧ (other ≠ k → lookupKey (mt._del k).cache other = lookupKey mt.cache other)
  ∧ (lookupKey mp.cache k = none → mp._del k = mp)
  ∧ (mp.cache = [] → mp._clear = mp)
  ∧ lookupKey (mp._del k).cache k = none
  ∧ (other ≠ k → lookupKey (mp._del k).cache other = lookupKey mp.cache other) := by
  refine ⟨?_, ?_, ?_, ?_, ?_, ?_, ?_, ?_⟩
  · intro hnone
    have hall := (lookupKey_eq_none_iff mt.cache k).mp hnone
    have : mt.cache.filter (fun p => p.1 != k) = mt.cache := by
      rw [List.filter_eq_self]
      intro a ha
      simpa using hall a ha
    show ({ mt with cache := mt.cache.filter (fun p => p.1 != k) } : KeyTLock) = mt
    rw [this]
  · intro hemp
    show ({ mt with cache := [] } : KeyTLock) = mt
    rw [← hemp]
  · exact lookupKey_filter_self mt.cache k
  · intro hne
    exact lookupKey_filter_ne mt.cache k other hne
  · intro hnone
    have hall := (lookupKey_eq_none_iff mp.cache k).mp hnone
    have : mp.cache.filter (fun p => p.1 != k) = mp.cache := by
      rw [List.filter_eq_self]
      intro a ha
      simpa using hall a ha
    show ({ mp with cache := mp.cache.filter (fun p => p.1 != k) } : KeyPLock) = mp
    rw [this]
  · intro hemp
    show ({ mp with cache := [] } : KeyPLock) = mp
    rw [← hemp]
  · exact lookupKey_filter_self mp.cache k
  · intro hne
    exact lookupKey_filter_ne mp.cache k other hne

/-- Witness for C10: deleting the absent key `x` from fresh managers
changes nothing, and a delete of `x` leaves the lookup of `r` alone. -/
theorem claim10_del_clear_safe_witness :
    KeyTLock.init._del "x" = KeyTLock.init ∧
    KeyTLock.init._clear = KeyTLock.init ∧
    (KeyPLock.init "./pylocks")._del "x" = KeyPLock.init "./pylocks" ∧
    lookupKey (((KeyTLock.init.lock "r").2.1._del "x").cache) "r"
      = lookupKey ((KeyTLock.init.lock "r").2.1.cache) "r" := by
  have h1 := claim10_del_clear_safe KeyTLock.init (KeyPLock.init "./pylocks") "x" "r"
  have h2 := claim10_del_clear_safe (KeyTLock.init.lock "r").2.1
    (KeyPLock.init "./pylocks") "x" "r"
  exact ⟨h1.1 (by decide), h1.2.1 (by decide), h1.2.2.2.2.1 (by decide),
         h2.2.2.2.1 (by decide)⟩

/-! Trace lemmas for the registry-mutex coverage claim. -/

/-- `noReg` distributes over append. -/
theorem noReg_append (a b : List LEvent) :
    noReg (a ++ b) = (noReg a && noReg b) := by
  simp [noReg, List.all_append]

/-- `start` performs no registry-mutex event of its own. -/
theorem noReg_start (t : TaskPro) (e : StartEnv) :
    noReg (t.start e).2.2 = true := by
  obtain ⟨task, name, args, kwargs, status, se, sse, proc⟩ := t
  obtain ⟨oa, np, rd, aat⟩ := e
  cases task <;> cases proc <;> cases oa <;> cases rd <;> cases aat <;>
    simp [TaskPro.start, noReg, isRegEvent]

/-- `stop` performs no registry-mutex event of its own. -/
theorem noReg_stop (t : TaskPro) (e : StopEnv) :
    noReg (t.stop e).2.2 = true := by
  obtain ⟨task, name, args, kwargs, status, se, sse, proc⟩ := t
  obtain ⟨af, ag⟩ := e
  cases proc <;> cases af <;> cases ag <;>
    simp [TaskPro.stop, noReg, isRegEvent]

/-- `restart` performs no registry-mutex event of its own. -/
theorem noReg_restart (t : TaskPro) (e : RestartEnv) :
    noReg (t.restart e).2.2 = true := by
  unfold TaskPro.restart
  by_cases h : t.task.isNone
  · simp [h, noReg]
  · by_cases h2 : (t.process.isSome && e.aliveAtCheck)
    · simp only [h, h2, Bool.false_eq_true, if_false, if_true, noReg_append]
      rw [Bool.and_eq_true]
      exact ⟨noReg_stop t e.stopEnv, noReg_start _ e.startEnv⟩
    · simp only [h, h2, Bool.false_eq_true, if_false, noReg_append]
      rw [Bool.and_eq_true]
      exact ⟨rfl, noReg_start t e.startEnv⟩

/-- The info loop performs no registry-mutex event of its own. -/
theorem noReg_allInfoLoop : ∀ (ts : List (String × TaskPro)) (als : List Bool),
    noReg (allInfoLoop ts als).2 = true := by
  intro ts
  induction ts with
  | nil => intro als; rfl
  | cons a rest ih =>
    intro als
    obtain ⟨n, t⟩ := a
    show noReg ((t.info (als.headD false)).2 ++ (allInfoLoop rest als.tail).2) = true
    rw [noReg_append, Bool.and_eq_true]
    exact ⟨rfl, ih als.tail⟩

/-- The stop-all loop performs no registry-mutex event of its own. -/
theorem noReg_stopAllLoop : ∀ (ts : List (String × TaskPro)) (envs : List StopEnv),
    noReg (stopAllLoop ts envs).2.2 = true := by
  intro ts
  induction ts with
  | nil => intro envs; rfl
  | cons a rest ih =>
    intro envs
    obtain ⟨n, t⟩ := a
    show noReg ((t.stop (envs.headD ⟨true, true⟩)).2.2
          ++ (stopAllLoop rest envs.tail).2.2) = true
    rw [noReg_append, Bool.and_eq_true]
    exact ⟨noReg_stop t _, ih envs.tail⟩

/-- Wrapping a registry-free body in one acquire/release pair yields a
trace that holds the registry mutex for its entire extent. -/
theorem bracketOk_wrap (body : List LEvent) (h : noReg body = true) :
    bracketOk ([LEvent.regAcq] ++ body ++ [LEvent.regRel]) = true := by
  have hb : bracketOk ([LEvent.regAcq] ++ body ++ [LEvent.regRel])
      = (!(body ++ [LEvent.regRel]).isEmpty
         && noReg (body ++ [LEvent.regRel]).dropLast
         && ((body ++ [LEvent.regRel]).getLast? == some LEvent.regRel)) := rfl
  have hne : (body ++ [LEvent.regRel]).isEmpty = false := by
    cases body <;> rfl
  rw [hb, List.dropLast_concat, List.getLast?_concat, hne, h]
  rfl

/-- `hasWaitReady` distributes over append. -/
theorem hasWaitReady_append (a b : List LEvent) :
    hasWaitReady (a ++ b) = (hasWaitReady a || hasWaitReady b) := by
  simp [hasWaitReady, List.any_append]

/-- `stop` never waits for the readiness signal. -/
theorem noWait_stop (t : TaskPro) (e : StopEnv) :
    hasWaitReady (t.stop e).2.2 = false := by
  obtain ⟨task, name, args, kwargs, status, se, sse, proc⟩ := t
  obtain ⟨af, ag⟩ := e
  cases proc <;> cases af <;> cases ag <;>
    simp [TaskPro.stop, hasWaitReady]

/-- The info loop never waits for the readiness signal. -/
theorem noWait_allInfoLoop : ∀ (ts : List (String × TaskPro)) (als : List Bool),
    hasWaitReady (allInfoLoop ts als).2 = false := by
  intro ts
  induction ts with
  | nil => intro als; rfl
  | cons a rest ih =>
    intro als
    obtain ⟨n, t⟩ := a
    show hasWaitReady ((t.info (als.headD false)).2
          ++ (allInfoLoop rest als.tail).2) = false
    rw [hasWaitReady_append, Bool.or_eq_false_iff]
    exact ⟨rfl, ih als.tail⟩

/-- The stop-all loop never waits for the readiness signal. -/
theorem noWait_stopAllLoop : ∀ (ts : List (String × TaskPro)) (envs : List StopEnv),
    hasWaitReady (stopAllLoop ts envs).2.2 = false := by
  intro ts
  induction ts with
  | nil => intro envs; rfl
  | cons a rest ih =>
    intro envs
    obtain ⟨n, t⟩ := a
    show hasWaitReady ((t.stop (envs.headD ⟨true, true⟩)).2.2
          ++ (stopAllLoop rest envs.tail).2.2) = false
    rw [hasWaitReady_append, Bool.or_eq_false_iff]
    exact ⟨noWait_stop t _, ih envs.tail⟩

/-- A trace with no readiness wait trivially satisfies the
wait-position check from any starting depths. -/
theorem waitHeldGo_of_noWait : ∀ (tr : List LEvent) (d : Nat × Nat),
    hasWaitReady tr = false → waitHeldGo d tr = true := by
  intro tr
  induction tr with
  | nil => intro d _; rfl
  | cons e rest ih =>
    intro d h
    rw [hasWaitReady, List.any_cons, Bool.or_eq_false_iff] at h
    by_cases he : e = LEvent.waitReadyEv
    · subst he
      exact absurd h.1 (by simp)
    · have hc : waitCheckHeld d e = true := by
        cases e <;> first | rfl | exact absurd rfl he
      show (waitCheckHeld d e && waitHeldGo (stepDepths d e) rest) = true
      rw [hc, ih _ h.2]
      rfl

/-- Depth tracking distributes over append. -/
theorem depthsAfter_append (d : Nat × Nat) (a b : List LEvent) :
    depthsAfter d (a ++ b) = depthsAfter (depthsAfter d a) b := by
  simp [depthsAfter, List.foldl_append]

/-- The wait-position check distributes over append. -/
theorem waitHeldGo_append : ∀ (a : List LEvent) (d : Nat × Nat) (b : List LEvent),
    waitHeldGo d (a ++ b)
      = (waitHeldGo d a && waitHeldGo (depthsAfter d a) b) := by
  intro a
  induction a with
  | nil => intro d b; simp [waitHeldGo, depthsAfter]
  | cons e rest ih =>
    intro d b
    show (waitCheckHeld d e && waitHeldGo (stepDepths d e) (rest ++ b))
        = (waitHeldGo d (e :: rest) && waitHeldGo (depthsAfter d (e :: rest)) b)
    rw [ih (stepDepths d e) b, ← Bool.and_assoc]
    rfl

/-- `stop` leaves the mutex nesting depths where it found them. -/
theorem stop_depths (t : TaskPro) (e : StopEnv) (d : Nat × Nat) :
    depthsAfter d (t.stop e).2.2 = d := by
  obtain ⟨task, name, args, kwargs, status, se, sse, proc⟩ := t
  obtain ⟨af, ag⟩ := e
  cases proc <;> cases af <;> cases ag <;>
    simp [TaskPro.stop, depthsAfter, stepDepths]

/-- Through a `start` trace entered with the registry mutex held and
the task mutex free, the readiness wait (when it occurs) happens with
the registry mutex held and the task mutex free; a closing registry
release may follow the trace. -/
theorem waitHeldGo_startTrace (t : TaskPro) (e : StartEnv) :
    waitHeldGo (1, 0) ((t.start e).2.2 ++ [LEvent.regRel]) = true := by
  obtain ⟨task, name, args, kwargs, status, se, sse, proc⟩ := t
  obtain ⟨oa, np, rd, aat⟩ := e
  cases task <;> cases proc <;> cases oa <;> cases rd <;> cases aat <;>
    simp [TaskPro.start, waitHeldGo, waitCheckHeld, stepDepths]

/-- Same property through a `restart` trace. -/
theorem waitHeldGo_restartTrace (t : TaskPro) (e : RestartEnv) :
    waitHeldGo (1, 0) ((t.restart e).2.2 ++ [LEvent.regRel]) = true := by
  unfold TaskPro.restart
  by_cases h : t.task.isNone
  · simp [h, waitHeldGo, waitCheckHeld, stepDepths]
  · by_cases h2 : (t.process.isSome && e.aliveAtCheck)
    · simp only [h, h2, Bool.false_eq_true, if_false, if_true]
      rw [List.append_assoc, waitHeldGo_append,
          stop_depths t e.stopEnv (1, 0)]
      rw [waitHeldGo_of_noWait _ _ (noWait_stop t e.stopEnv),
          waitHeldGo_startTrace _ e.startEnv]
      rfl
    · simp only [h, h2, Bool.false_eq_true, if_false]
      show waitHeldGo (1, 0) (([] ++ (t.start e.startEnv).2.2) ++ [LEvent.regRel]) = true
      rw [List.nil_append]
      exact waitHeldGo_startTrace t e.startEnv

/-- A registry trace wrapping a body that is registry-free and passes
the wait check at depths (1, 0) holds the registry mutex for its whole
extent, and its readiness waits (if any) run under the registry mutex
and outside the task mutex. -/
theorem regOk_of_wrap (body : List LEvent) (hnr : noReg body = true)
    (hw : waitHeldGo (1, 0) (body ++ [LEvent.regRel]) = true) :
    bracketOk ([LEvent.regAcq] ++ body ++ [LEvent.regRel]) = true ∧
    waitUnderRegOutsideTask ([LEvent.regAcq] ++ body ++ [LEvent.regRel]) = true := by
  refine ⟨bracketOk_wrap body hnr, ?_⟩
  show (waitCheckHeld (0, 0) LEvent.regAcq
        && waitHeldGo (1, 0) (body ++ [LEvent.regRel])) = true
  rw [hw]
  rfl

/-- Specialisation of `regOk_of_wrap` to bodies with no readiness wait. -/
theorem regOk_of_noWait (body : List LEvent) (hnr : noReg body = true)
    (hnw : hasWaitReady body = false) :
    bracketOk ([LEvent.regAcq] ++ body ++ [LEvent.regRel]) = true ∧
    waitUnderRegOutsideTask ([LEvent.regAcq] ++ body ++ [LEvent.regRel]) = true :=
  regOk_of_wrap body hnr
    (waitHeldGo_of_noWait _ _ (by rw [hasWaitReady_append, hnw]; rfl))

/-- Counterexample to C7 as stated: `start_task` on the registered task
`a` performs its readiness-handshake wait while the registry mutex is
held — the wait does not happen outside the registry mutex (it is only
the task's own mutex that is released for the wait). -/
theorem claim7_counterexample :
    hasWaitReady (regTrace sampleMgr (.startC "a" ⟨false, 5, true, false⟩)) = true ∧
    waitOutsideReg (regTrace sampleMgr (.startC "a" ⟨false, 5, true, false⟩)) = false := by
  decide

/-- C7 (amended): every `TaskProMgr` operation holds the registry's
single mutex for its entire body, with no exception for task starts:
the full readiness-handshake wait of a start (or restart) happens while
the registry mutex is held, so other registry operations are blocked
for the whole handshake window; the wait is outside only the task's own
mutex. -/
theorem claim7_registry_mutex_coverage (m : TaskProMgr) (c : RegCall) :
    bracketOk (regTrace m c) = true ∧
    waitUnderRegOutsideTask (regTrace m c) = true := by
  cases c with
  | createC n task a k =>
    simp only [regTrace]
    by_cases hg : m.tasks.any (fun p => p.1 == n)
    · have ht : (m.create_task n task a k).2.2 = [LEvent.regAcq, LEvent.regRel] := by
        simp [TaskProMgr.create_task, hg]
      rw [ht]
      exact regOk_of_noWait [] rfl rfl
    · have ht : (m.create_task n task a k).2.2 = [LEvent.regAcq, LEvent.regRel] := by
        simp [TaskProMgr.create_task, hg, TaskPro.set, TaskPro.init]
      rw [ht]
      exact regOk_of_noWait [] rfl rfl
  | startC n env =>
    simp only [regTrace]
    unfold TaskProMgr.start_task
    cases hl : lookupTask m n with
    | some t =>
      exact regOk_of_wrap _ (noReg_start t env) (waitHeldGo_startTrace t env)
    | none =>
      exact regOk_of_noWait [] rfl rfl
  | stopC n env =>
    simp only [regTrace]
    unfold TaskProMgr.stop_task
    cases hl : lookupTask m n with
    | some t =>
      exact regOk_of_noWait _ (noReg_stop t env) (noWait_stop t env)
    | none =>
      exact regOk_of_noWait [] rfl rfl
  | restartC n env =>
    simp only [regTrace]
    unfold TaskProMgr.restart_task
    cases hl : lookupTask m n with
    | some t =>
      exact regOk_of_wrap _ (noReg_restart t env) (waitHeldGo_restartTrace t env)
    | none =>
      exact regOk_of_noWait [] rfl rfl
  | removeC n env =>
    simp only [regTrace]
    unfold TaskProMgr.remove_task
    cases hl : lookupTask m n with
    | some t =>
      exact regOk_of_noWait _ (noReg_stop t env) (noWait_stop t env)
    | none =>
      exact regOk_of_noWait [] rfl rfl
  | infoC n alive =>
    simp only [regTrace]
    unfold TaskProMgr.get_task_info
    cases hl : lookupTask m n with
    | some t =>
      exact regOk_of_noWait _ rfl rfl
    | none =>
      exact regOk_of_noWait [] rfl rfl
  | listC =>
    exact regOk_of_noWait [] rfl rfl
  | allInfoC alives =>
    simp only [regTrace]
    exact regOk_of_noWait _ (noReg_allInfoLoop m.tasks alives)
      (noWait_allInfoLoop m.tasks alives)
  | stopAllC envs =>
    simp only [regTrace]
    exact regOk_of_noWait _ (noReg_stopAllLoop m.tasks envs)
      (noWait_stopAllLoop m.tasks envs)

end PyTool
